import Mathlib

/-!
Verification of the Amplitude OpenFeature provider (go-sdk-contrib,
providers/amplitude).  The Go source is shallowly embedded: Go maps become
association lists with assignment (last-write-wins) semantics, the dynamically
typed `any` payload becomes a closed inductive of JSON-representable values,
float64 values are modelled as exact rationals, and the external collaborators
(experiment client, cache, analytics) become explicit function parameters.
-/

/- ===================================================================
   Go map model: association lists with Go assignment/lookup semantics.
   `mapSet m k v` models `m[k] = v` (replaces the binding if the key is
   present, otherwise appends); `mapGet m k` models `m[k]` lookup.
   =================================================================== -/

def mapSet {β : Type} : List (String × β) → String → β → List (String × β)
  | [], k, v => [(k, v)]
  | (k0, v0) :: rest, k, v =>
    if k0 = k then (k0, v) :: rest else (k0, v0) :: mapSet rest k v

def mapGet {β : Type} : List (String × β) → String → Option β
  | [], _ => none
  | (k0, v0) :: rest, k => if k0 = k then some v0 else mapGet rest k

/- ===================================================================
   normalization.go: canonical keys (type Key string) and the three
   registry slices userKeys / eventKeys / sharedKeys.
   =================================================================== -/

/-- Key is the type for the keys in Amplitude User and Event types. -/
abbrev Key := String

def KeyUserID : Key := "user_id"
def KeyDeviceID : Key := "device_id"
def KeyCountry : Key := "country"
def KeyRegion : Key := "region"
def KeyDMA : Key := "dma"
def KeyCity : Key := "city"
def KeyLanguage : Key := "language"
def KeyPlatform : Key := "platform"
def KeyVersion : Key := "version"
def KeyOS : Key := "os"
def KeyDeviceManufacturer : Key := "device_manufacturer"
def KeyDeviceBrand : Key := "device_brand"
def KeyDeviceModel : Key := "device_model"
def KeyCarrier : Key := "carrier"
def KeyLibrary : Key := "library"
def KeyUserProperties : Key := "user_properties"
def KeyGroupProperties : Key := "group_properties"
def KeyGroups : Key := "groups"
def KeyCohortIDs : Key := "cohort_ids"
def KeyGroupCohortIDSet : Key := "group_cohort_ids"
def KeyTime : Key := "time"
def KeyInsertID : Key := "insert_id"
def KeyLocationLat : Key := "location_lat"
def KeyLocationLng : Key := "location_lng"
def KeyAppVersion : Key := "app_version"
def KeyVersionName : Key := "version_name"
def KeyOSName : Key := "os_name"
def KeyOSVersion : Key := "os_version"
def KeyIDFA : Key := "idfa"
def KeyIDFV : Key := "idfv"
def KeyADID : Key := "adid"
def KeyAndroidID : Key := "android_id"
def KeyIP : Key := "ip"
def KeyPrice : Key := "price"
def KeyQuantity : Key := "quantity"
def KeyRevenue : Key := "revenue"
def KeyCurrency : Key := "currency"
def KeyProductID : Key := "productId"
def KeyRevenueType : Key := "revenueType"
def KeyEventID : Key := "event_id"
def KeySessionID : Key := "session_id"
def KeyPartnerID : Key := "partner_id"
def KeyPlan : Key := "plan"
def KeyIngestionMetadata : Key := "ingestion_metadata"
def KeyEventProperties : Key := "event_properties"
def KeyEventType : Key := "event_type"

/-- eventKeys contains fields that are ONLY present on analytics.Event
(EventOptions), not on experiment.User. -/
def eventKeys : List Key :=
  [KeyTime, KeyInsertID, KeyLocationLat, KeyLocationLng, KeyAppVersion,
   KeyVersionName, KeyOSName, KeyOSVersion, KeyIDFA, KeyIDFV, KeyADID,
   KeyAndroidID, KeyIP, KeyPrice, KeyQuantity, KeyRevenue, KeyCurrency,
   KeyProductID, KeyRevenueType, KeyEventID, KeySessionID, KeyPartnerID,
   KeyPlan, KeyIngestionMetadata, KeyEventProperties, KeyEventType]

/-- userKeys contains ALL fields present on experiment.User (including the
shared fields). -/
def userKeys : List Key :=
  [KeyUserID, KeyDeviceID, KeyCountry, KeyRegion, KeyDMA, KeyCity,
   KeyLanguage, KeyPlatform, KeyDeviceManufacturer, KeyDeviceBrand,
   KeyDeviceModel, KeyCarrier, KeyLibrary, KeyUserProperties,
   KeyGroupProperties, KeyGroups, KeyVersion, KeyOS, KeyCohortIDs,
   KeyGroupCohortIDSet]

/-- sharedKeys contains fields that are present on BOTH experiment.User and
analytics.Event. -/
def sharedKeys : List Key :=
  [KeyUserID, KeyDeviceID, KeyCountry, KeyRegion, KeyDMA, KeyCity,
   KeyLanguage, KeyPlatform, KeyDeviceManufacturer, KeyDeviceBrand,
   KeyDeviceModel, KeyCarrier, KeyLibrary, KeyUserProperties,
   KeyGroupProperties, KeyGroups]

/-- allKeys mirrors `append(append(userKeys, eventKeys...), sharedKeys...)`. -/
def allKeys : List Key := userKeys ++ eventKeys ++ sharedKeys

/-- TargetingKey is the OpenFeature targeting key attribute name
(`of.TargetingKey` in the OpenFeature Go SDK). -/
def TargetingKey : String := "targetingKey"

/- ===================================================================
   normalization.go: makePermutations.  The regular expression
   `[_^].` matches an underscore or caret followed by any character;
   ReplaceAllStringFunc rewrites each non-overlapping match.
   =================================================================== -/

/-- Model of Go `strings.ToLower` (the canonical keys are ASCII, where the Go
and Lean case maps agree); defined over the character list so that it
evaluates by kernel reduction. -/
def strToLower (s : String) : String := ⟨s.data.map Char.toLower⟩

/-- Model of Go `strings.ToUpper` (ASCII inputs). -/
def strToUpper (s : String) : String := ⟨s.data.map Char.toUpper⟩

/-- Model of `reWordBreak.ReplaceAllStringFunc`: each occurrence of `'_'` or
`'^'` followed by a character is replaced by `f` of that character; a trailing
`'_'`/`'^'` with nothing after it is not matched by the regex (the `.` needs a
character) and is kept. -/
def replaceWordBreaks (f : Char → List Char) : List Char → List Char
  | [] => []
  | c :: rest =>
    if c = '_' ∨ c = '^' then
      match rest with
      | [] => [c]
      | d :: rest2 => f d ++ replaceWordBreaks f rest2
    else c :: replaceWordBreaks f rest

/-- The camelCase pass: `_x` becomes upper-case `X`. -/
def camelCase (s : String) : String :=
  ⟨replaceWordBreaks (fun d => [d.toUpper]) s.data⟩

/-- The kebab-case pass: `_x` becomes `-x` lower-cased. -/
def kebabCase (s : String) : String :=
  ⟨replaceWordBreaks (fun d => ['-', d.toLower]) s.data⟩

/-- Model of Go `strings.CutSuffix`: returns the string without the suffix and
whether the suffix was present.  Byte slicing coincides with character slicing
on the ASCII canonical keys. -/
def cutSuffix (s sfx : String) : String × Bool :=
  if sfx.data.isSuffixOf s.data then
    (⟨s.data.take (s.data.length - sfx.data.length)⟩, true)
  else (s, false)

/-- makePermutations from normalization.go: the exact string, lower and upper
case forms, camelCase and kebab-case forms when the string contains an
underscore, and the extra `IDs`/`-ids`/`ids` (resp. `ID`/`-id`/`id`) spellings
for the `_ids`/`_id` suffixes.  KeyRevenueType is rewritten to snake_case
before the passes run. -/
def makePermutations (value0 : String) : List String :=
  let value := if value0 = KeyRevenueType then "revenue_type" else value0
  let base := [value, strToLower value, strToUpper value]
  let withWordBreaks :=
    if value.data.contains '_' then base ++ [camelCase value, kebabCase value]
    else base
  let cIds := cutSuffix value "_ids"
  let withIds :=
    if cIds.2 then
      withWordBreaks ++
        [cIds.1 ++ "IDs", strToLower (cIds.1 ++ "-ids"), strToLower (cIds.1 ++ "ids")]
    else withWordBreaks
  let cId := cutSuffix value "_id"
  if cId.2 then
    withIds ++ [cId.1 ++ "ID", strToLower (cId.1 ++ "-id"), strToLower (cId.1 ++ "id")]
  else withIds

/-- DefaultKeyMap from normalization.go: for every canonical key, every
permutation is registered to that key (later writes win on collisions), and
finally the OpenFeature targeting key is mapped to KeyUserID. -/
def DefaultKeyMap : List (String × Key) :=
  let keyMap := allKeys.foldl
    (fun m key => (makePermutations key).foldl (fun m2 perm => mapSet m2 perm key) m)
    []
  mapSet keyMap TargetingKey KeyUserID

/- ===================================================================
   Payload model: the dynamically typed variant payload, as produced by
   the Go JSON decoder (design note in the spec: a closed union of the
   JSON-representable shapes).  `num` is a float64 modelled as an exact
   rational (IEEE rounding is not modelled); `jsonNum` is
   `encoding/json.Number`, the decimal string the decoder would produce
   with `UseNumber`; `null` is an absent (nil) payload.
   =================================================================== -/

inductive Payload where
  | bool (b : Bool)
  | num (x : Rat)
  | jsonNum (s : String)
  | str (s : String)
  | arr (elems : List Payload)
  | obj (fields : List (String × Payload))
  | null

/- ===================================================================
   Parsers: strconv.ParseInt(s, 10, 64) (also json.Number.Int64) and the
   decimal forms of strconv.ParseFloat(s, 64) (json.Number.Float64).
   The float parser returns the exact decimal value as a rational;
   hexadecimal floats and the inf/nan spellings accepted by Go have no
   rational counterpart and are not modelled.
   =================================================================== -/

/-- Splits a leading run of ASCII digits from the rest. -/
def takeDigits : List Char → List Char × List Char
  | [] => ([], [])
  | c :: rest =>
    if c.isDigit then
      let p := takeDigits rest
      (c :: p.1, p.2)
    else ([], c :: rest)

/-- Numeric value of a digit run. -/
def natOfDigits (ds : List Char) : Nat :=
  ds.foldl (fun n c => n * 10 + (c.toNat - 48)) 0

/-- Splits an optional leading sign, returning the sign as an integer. -/
def takeSign : List Char → Int × List Char
  | '+' :: rest => (1, rest)
  | '-' :: rest => (-1, rest)
  | cs => (1, cs)

/-- Model of `strconv.ParseInt(s, 10, 64)`: optional sign, a non-empty run of
decimal digits, and the int64 range check. -/
def parseInt64 (s : String) : Option Int :=
  let p := takeSign s.data
  if p.2.isEmpty ∨ ¬ p.2.all Char.isDigit then none
  else
    let v : Int := p.1 * natOfDigits p.2
    if -(2 ^ 63) ≤ v ∧ v ≤ 2 ^ 63 - 1 then some v else none

/-- Model of the decimal forms of `strconv.ParseFloat(s, 64)`: optional sign,
digits with an optional fractional part (at least one digit overall), and an
optional exponent.  The value is exact — the mantissa digits over the decimal
scale, shifted by the exponent; rounding to the nearest float64 is not
modelled. -/
def parseFloatDec (s : String) : Option Rat :=
  let p := takeSign s.data
  let ipart := takeDigits p.2
  let q := match ipart.2 with
    | '.' :: rest => takeDigits rest
    | _ => ([], ipart.2)
  if ipart.1.isEmpty ∧ q.1.isEmpty then none
  else
    let mantNum : Int := p.1 * natOfDigits (ipart.1 ++ q.1)
    let mantDen : Nat := 10 ^ q.1.length
    match q.2 with
    | [] => some (mkRat mantNum mantDen)
    | e :: rest =>
      if e = 'e' ∨ e = 'E' then
        let es := takeSign rest
        let ed := takeDigits es.2
        if ed.1.isEmpty ∨ ¬ ed.2.isEmpty then none
        else
          let mag : Nat := 10 ^ natOfDigits ed.1
          some (if 0 ≤ es.1 then mkRat (mantNum * mag) mantDen
                else mkRat mantNum (mantDen * mag))
      else none

/-- Model of Go `int64(f)` for a float64 `f`: truncation toward zero
(`Int.tdiv` of the numerator by the denominator).  Behavior on values outside
the int64 range is not modelled. -/
def truncToInt64 (x : Rat) : Int := x.num.tdiv (x.den : Int)

/- ===================================================================
   OpenFeature result model (of.ProviderResolutionDetail).  The Go
   provider leaves `Reason` at its zero value for resolved results, so
   the model keeps an explicit `unset` state; error messages carried by
   of.ResolutionError are elided, only the error code is kept.
   =================================================================== -/

inductive Reason where
  | unset
  | default
  | error
deriving DecidableEq, Repr

inductive ErrorCode where
  | providerNotReady
  | flagNotFound
  | invalidContext
  | typeMismatch
  | general
deriving DecidableEq, Repr

/-- Model of the map built by `variantMetadata`, which always has exactly the
two entries `key` and `value`. -/
structure FlagMetadata where
  key : String
  value : String
deriving DecidableEq, Repr

structure ResolutionDetail (α : Type) where
  value : α
  variant : String
  reason : Reason
  errorCode : Option ErrorCode
  flagMetadata : Option FlagMetadata

/-- experiment.Variant: key, value, dynamically typed payload and service
metadata. -/
structure Variant where
  key : String
  value : String
  payload : Payload
  metadata : List (String × Payload)

/-- variantKeyOff is the variant key returned by Amplitude when a user is not
included in a feature flag's rollout. -/
def variantKeyOff : String := "off"

/-- variantMetadata returns the standard metadata for a variant. -/
def variantMetadata (variant : Variant) : FlagMetadata :=
  { key := variant.key, value := variant.value }

/-- The defaulted-on-error result shape every typed evaluation returns when
`evaluateFlag` reports a resolution error. -/
def errorDetail {α : Type} (defaultValue : α) (e : ErrorCode) : ResolutionDetail α :=
  { value := defaultValue, variant := "", reason := .error,
    errorCode := some e, flagMetadata := none }

/-- The intentionally-defaulted result shape (reason DEFAULT, no variant, no
metadata). -/
def defaultDetail {α : Type} (defaultValue : α) : ResolutionDetail α :=
  { value := defaultValue, variant := "", reason := .default,
    errorCode := none, flagMetadata := none }

/-- The resolved result shape: the variant key and the `variantMetadata` map
are attached and the reason is left at its zero value. -/
def resolvedDetail {α : Type} (x : α) (variant : Variant) : ResolutionDetail α :=
  { value := x, variant := variant.key, reason := .unset,
    errorCode := none, flagMetadata := some (variantMetadata variant) }

/- ===================================================================
   provider.go: context normalization and the experiment.User record.
   The evaluation context is the flattened OpenFeature context; values
   are restricted to the JSON-representable payloads (values the Go
   marshaller rejects, such as channels, are outside the model).
   =================================================================== -/

abbrev FlattenedContext := List (String × Payload)

/-- normalizeContext from provider.go: each context entry is routed through
the key map; hits land in the normalized canonical-key map, misses in the
extra map. -/
def normalizeContext (keyMap : List (String × Key)) (contextMap : FlattenedContext) :
    List (Key × Payload) × List (String × Payload) :=
  contextMap.foldl
    (fun acc kv =>
      match mapGet keyMap kv.1 with
      | some resolvedKey => (mapSet acc.1 resolvedKey kv.2, acc.2)
      | none => (acc.1, mapSet acc.2 kv.1 kv.2))
    ([], [])

/-- experiment.User, with the fields populated by the JSON round trip in
`toAmplitudeUser`.  The map-typed fields keep their entries as payload maps;
the deeper shape constraints the Go decoder puts on the four group/cohort
maps are not modelled. -/
structure User where
  userId : String
  deviceId : String
  country : String
  region : String
  dma : String
  city : String
  language : String
  platform : String
  version : String
  os : String
  deviceManufacturer : String
  deviceBrand : String
  deviceModel : String
  carrier : String
  library : String
  userProperties : Option (List (String × Payload))
  groupProperties : Option (List (String × Payload))
  groups : Option (List (String × Payload))
  cohortIds : Option (List (String × Payload))
  groupCohortIds : Option (List (String × Payload))

/-- Decoding one string-typed field of experiment.User: absent keys leave the
zero value, a string payload is assigned, anything else is a decode error. -/
def unmarshalString (m : List (Key × Payload)) (k : Key) : Except String String :=
  match mapGet m k with
  | none => .ok ""
  | some (.str s) => .ok s
  | some _ => .error ("cannot unmarshal value into string field " ++ k)

/-- Decoding one map-typed field of experiment.User: absent keys leave a nil
map, an object payload is assigned, anything else is a decode error. -/
def unmarshalObj (m : List (Key × Payload)) (k : Key) :
    Except String (Option (List (String × Payload))) :=
  match mapGet m k with
  | none => .ok none
  | some (.obj kvs) => .ok (some kvs)
  | some _ => .error ("cannot unmarshal value into map field " ++ k)

/-- Model of the `json.Marshal` / `json.Unmarshal` round trip that projects
the normalized canonical-key map onto experiment.User: every User field is
decoded from its canonical key, and normalized keys that are not User fields
(the event-only keys) are dropped by the decoder. -/
def unmarshalUser (m : List (Key × Payload)) : Except String User := do
  let userId ← unmarshalString m KeyUserID
  let deviceId ← unmarshalString m KeyDeviceID
  let country ← unmarshalString m KeyCountry
  let region ← unmarshalString m KeyRegion
  let dma ← unmarshalString m KeyDMA
  let city ← unmarshalString m KeyCity
  let language ← unmarshalString m KeyLanguage
  let platform ← unmarshalString m KeyPlatform
  let version ← unmarshalString m KeyVersion
  let os ← unmarshalString m KeyOS
  let deviceManufacturer ← unmarshalString m KeyDeviceManufacturer
  let deviceBrand ← unmarshalString m KeyDeviceBrand
  let deviceModel ← unmarshalString m KeyDeviceModel
  let carrier ← unmarshalString m KeyCarrier
  let library ← unmarshalString m KeyLibrary
  let userProperties ← unmarshalObj m KeyUserProperties
  let groupProperties ← unmarshalObj m KeyGroupProperties
  let groups ← unmarshalObj m KeyGroups
  let cohortIds ← unmarshalObj m KeyCohortIDs
  let groupCohortIds ← unmarshalObj m KeyGroupCohortIDSet
  pure { userId, deviceId, country, region, dma, city, language, platform,
         version, os, deviceManufacturer, deviceBrand, deviceModel, carrier,
         library, userProperties, groupProperties, groups, cohortIds,
         groupCohortIds }

/-- The user-properties merge in `toAmplitudeUser`: the map is allocated when
it is nil and extra entries exist, then every extra (unmapped) context entry
is written into it, overwriting explicit entries of the same name. -/
def mergeProps (explicit : Option (List (String × Payload)))
    (extra : List (String × Payload)) : Option (List (String × Payload)) :=
  match explicit with
  | none =>
    if extra.isEmpty then none
    else some (extra.foldl (fun m kv => mapSet m kv.1 kv.2) [])
  | some m => some (extra.foldl (fun m2 kv => mapSet m2 kv.1 kv.2) m)

/-- The internal error classification of `toAmplitudeUser`; every one of these
is wrapped by `evaluateFlag` into an InvalidContext resolution error. -/
inductive UserError where
  | unmarshal (msg : String)
  | normalizer (msg : String)
  | missingIdentity
deriving DecidableEq, Repr

/-- The optional user-normalization hook (Config.UserNormalizer): it receives
the evaluation context and may rewrite the user or fail. -/
abbrev UserNormalizer := FlattenedContext → User → Except String User

/-- The provider configuration as used by evaluation: the key map
(Config.getKeyMap, DefaultKeyMap unless overridden) and the optional
UserNormalizer hook. -/
structure ProviderConfig where
  keyMap : List (String × Key)
  userNormalizer : Option UserNormalizer

/-- The part of `toAmplitudeUser` that builds the user record: normalization,
the JSON round trip onto experiment.User, the user-properties merge and the
UserNormalizer hook — everything before the identity check. -/
def buildUser (cfg : ProviderConfig) (evalCtx : FlattenedContext) : Except UserError User :=
  match unmarshalUser (normalizeContext cfg.keyMap evalCtx).1 with
  | .error msg => .error (.unmarshal msg)
  | .ok user0 =>
    match cfg.userNormalizer with
    | none =>
      .ok { user0 with
        userProperties :=
          mergeProps user0.userProperties (normalizeContext cfg.keyMap evalCtx).2 }
    | some f =>
      match f evalCtx { user0 with
          userProperties :=
            mergeProps user0.userProperties (normalizeContext cfg.keyMap evalCtx).2 } with
      | .error msg => .error (.normalizer msg)
      | .ok user2 => .ok user2

/-- toAmplitudeUser from provider.go: build the user, then require at least
one of the identity fields to be non-empty. -/
def toAmplitudeUser (cfg : ProviderConfig) (evalCtx : FlattenedContext) :
    Except UserError User :=
  match buildUser cfg evalCtx with
  | .error e => .error e
  | .ok user =>
    if user.userId = "" ∧ user.deviceId = "" then .error .missingIdentity
    else .ok user

/- ===================================================================
   provider.go: evaluateFlag and the five typed evaluations.  The
   provider state is of.State; the client adapter is an explicit
   function from the user to the remote call's outcome; the analytics
   exposure event, a fire-and-forget side effect, is not modelled.
   =================================================================== -/

inductive ProviderState where
  | notReady
  | ready
  | errorState
deriving DecidableEq, Repr

/-- stateError from provider.go: ProviderNotReady for the not-ready state,
General otherwise. -/
def stateError (s : ProviderState) : ErrorCode :=
  if s = .notReady then .providerNotReady else .general

structure ProviderModel where
  state : ProviderState
  config : ProviderConfig

/-- The client adapter boundary (`clientAdapter.Evaluate` applied to the one
flag under evaluation): either a transport/service error or a variant map. -/
abbrev ClientFn := User → Except String (List (String × Variant))

/-- evaluateFlag from provider.go: readiness check, user construction, remote
call, variant lookup, off-sentinel check.  `.ok none` is the nil variant
signalling "off"; resolution errors carry the error code of the failing
stage. -/
def evaluateFlag (p : ProviderModel) (client : ClientFn) (flag : String)
    (evalCtx : FlattenedContext) : Except ErrorCode (Option Variant) :=
  if p.state ≠ .ready then .error (stateError p.state)
  else
    match toAmplitudeUser p.config evalCtx with
    | .error _ => .error .invalidContext
    | .ok user =>
      match client user with
      | .error _ => .error .general
      | .ok variants =>
        match mapGet variants flag with
        | none => .error .flagNotFound
        | some variant =>
          if variant.key = variantKeyOff then .ok none
          else .ok (some variant)

/-- BooleanEvaluation from provider.go: boolean payloads are returned
directly; any other payload of a non-off variant means "enabled". -/
def BooleanEvaluation (p : ProviderModel) (client : ClientFn) (flag : String)
    (defaultValue : Bool) (evalCtx : FlattenedContext) : ResolutionDetail Bool :=
  match evaluateFlag p client flag evalCtx with
  | .error e => errorDetail defaultValue e
  | .ok none => defaultDetail defaultValue
  | .ok (some variant) =>
    if variant.key = variantKeyOff then defaultDetail defaultValue
    else
      match variant.payload with
      | .bool b => resolvedDetail b variant
      | _ => resolvedDetail true variant

/-- StringEvaluation from provider.go. -/
def StringEvaluation (p : ProviderModel) (client : ClientFn) (flag : String)
    (defaultValue : String) (evalCtx : FlattenedContext) : ResolutionDetail String :=
  match evaluateFlag p client flag evalCtx with
  | .error e => errorDetail defaultValue e
  | .ok none => defaultDetail defaultValue
  | .ok (some variant) =>
    match variant.payload with
    | .str s => resolvedDetail s variant
    | .null => defaultDetail defaultValue
    | _ => errorDetail defaultValue .typeMismatch

/-- FloatEvaluation from provider.go: a float64 payload is returned directly,
a json.Number payload is parsed with Float64, a nil payload defaults, and any
other payload shape is a type mismatch. -/
def FloatEvaluation (p : ProviderModel) (client : ClientFn) (flag : String)
    (defaultValue : Rat) (evalCtx : FlattenedContext) : ResolutionDetail Rat :=
  match evaluateFlag p client flag evalCtx with
  | .error e => errorDetail defaultValue e
  | .ok none => defaultDetail defaultValue
  | .ok (some variant) =>
    match variant.payload with
    | .num x => resolvedDetail x variant
    | .jsonNum s =>
      match parseFloatDec s with
      | some x => resolvedDetail x variant
      | none => errorDetail defaultValue .typeMismatch
    | .null => defaultDetail defaultValue
    | _ => errorDetail defaultValue .typeMismatch

/-- IntEvaluation from provider.go: a float64 payload is truncated to int64, a
json.Number payload is parsed with Int64, a string payload is parsed with
`strconv.ParseInt(s, 10, 64)`, a nil payload defaults, and any other payload
shape is a type mismatch. -/
def IntEvaluation (p : ProviderModel) (client : ClientFn) (flag : String)
    (defaultValue : Int) (evalCtx : FlattenedContext) : ResolutionDetail Int :=
  match evaluateFlag p client flag evalCtx with
  | .error e => errorDetail defaultValue e
  | .ok none => defaultDetail defaultValue
  | .ok (some variant) =>
    match variant.payload with
    | .num x => resolvedDetail (truncToInt64 x) variant
    | .jsonNum s =>
      match parseInt64 s with
      | some v => resolvedDetail v variant
      | none => errorDetail defaultValue .typeMismatch
    | .str s =>
      match parseInt64 s with
      | some v => resolvedDetail v variant
      | none => errorDetail defaultValue .typeMismatch
    | .null => defaultDetail defaultValue
    | _ => errorDetail defaultValue .typeMismatch

/-- ObjectEvaluation from provider.go: the payload is returned verbatim; a nil
payload is replaced by the caller's default value, but the result is still
built with the variant key and metadata attached and the reason unset. -/
def ObjectEvaluation (p : ProviderModel) (client : ClientFn) (flag : String)
    (defaultValue : Payload) (evalCtx : FlattenedContext) : ResolutionDetail Payload :=
  match evaluateFlag p client flag evalCtx with
  | .error e => errorDetail defaultValue e
  | .ok none => defaultDetail defaultValue
  | .ok (some variant) =>
    let result := match variant.payload with
      | .null => defaultValue
      | pl => pl
    { value := result, variant := variant.key, reason := .unset,
      errorCode := none, flagMetadata := some (variantMetadata variant) }

/- ===================================================================
   client_adapter_remote.go: clientAdapterRemote.Evaluate.  The cache
   is modelled by the outcomes of its Get and Set calls; the cache key
   (a sha256 of the JSON-encoded user) is an explicit hash parameter,
   and the JSON encode step cannot fail on the payload-valued model.
   =================================================================== -/

structure CacheModel where
  get : String → Except String (Option (List (String × Variant)))
  set : String → List (String × Variant) → Except String Unit

/-- clientAdapterRemote.Evaluate: a cache hit returns the cached variants; a
cache Get error or miss falls through to the live fetch; a fetch error is
returned; a cache Set error after a successful fetch is returned to the
caller (discarding the fetched variants). -/
def remoteEvaluate (cache : Option CacheModel) (hash : User → String)
    (fetch : User → Except String (List (String × Variant))) (user : User) :
    Except String (List (String × Variant)) :=
  match cache with
  | none => fetch user
  | some c =>
    let cacheKey := hash user
    match c.get cacheKey with
    | .ok (some cacheValue) => .ok cacheValue
    | _ =>
      match fetch user with
      | .error e => .error e
      | .ok variants =>
        match c.set cacheKey variants with
        | .error _ => .error "failed to store variants in cache"
        | .ok _ => .ok variants

/- ===================================================================
   Helper lemmas about the evaluation pipeline.
   =================================================================== -/

set_option maxRecDepth 100000

theorem evaluateFlag_of_not_ready (p : ProviderModel) (client : ClientFn)
    (flag : String) (ctx : FlattenedContext) (h : p.state ≠ .ready) :
    evaluateFlag p client flag ctx = .error (stateError p.state) := by
  unfold evaluateFlag
  rw [if_pos h]

theorem evaluateFlag_of_user_error (p : ProviderModel) (client : ClientFn)
    (flag : String) (ctx : FlattenedContext) (e : UserError)
    (hs : p.state = .ready) (hu : toAmplitudeUser p.config ctx = .error e) :
    evaluateFlag p client flag ctx = .error .invalidContext := by
  unfold evaluateFlag
  rw [if_neg (by simp [hs]), hu]

theorem evaluateFlag_of_client_error (p : ProviderModel) (client : ClientFn)
    (flag : String) (ctx : FlattenedContext) (user : User) (msg : String)
    (hs : p.state = .ready) (hu : toAmplitudeUser p.config ctx = .ok user)
    (hc : client user = .error msg) :
    evaluateFlag p client flag ctx = .error .general := by
  unfold evaluateFlag
  rw [if_neg (by simp [hs])]
  rw [hu]; dsimp only
  rw [hc]

theorem evaluateFlag_of_flag_missing (p : ProviderModel) (client : ClientFn)
    (flag : String) (ctx : FlattenedContext) (user : User)
    (variants : List (String × Variant))
    (hs : p.state = .ready) (hu : toAmplitudeUser p.config ctx = .ok user)
    (hc : client user = .ok variants) (hm : mapGet variants flag = none) :
    evaluateFlag p client flag ctx = .error .flagNotFound := by
  unfold evaluateFlag
  rw [if_neg (by simp [hs])]
  rw [hu]; dsimp only
  rw [hc]; dsimp only
  rw [hm]

theorem BooleanEvaluation_of_error (p : ProviderModel) (client : ClientFn)
    (flag : String) (d : Bool) (ctx : FlattenedContext) (e : ErrorCode)
    (h : evaluateFlag p client flag ctx = .error e) :
    BooleanEvaluation p client flag d ctx = errorDetail d e := by
  unfold BooleanEvaluation
  rw [h]

theorem StringEvaluation_of_error (p : ProviderModel) (client : ClientFn)
    (flag : String) (d : String) (ctx : FlattenedContext) (e : ErrorCode)
    (h : evaluateFlag p client flag ctx = .error e) :
    StringEvaluation p client flag d ctx = errorDetail d e := by
  unfold StringEvaluation
  rw [h]

theorem FloatEvaluation_of_error (p : ProviderModel) (client : ClientFn)
    (flag : String) (d : Rat) (ctx : FlattenedContext) (e : ErrorCode)
    (h : evaluateFlag p client flag ctx = .error e) :
    FloatEvaluation p client flag d ctx = errorDetail d e := by
  unfold FloatEvaluation
  rw [h]

theorem IntEvaluation_of_error (p : ProviderModel) (client : ClientFn)
    (flag : String) (d : Int) (ctx : FlattenedContext) (e : ErrorCode)
    (h : evaluateFlag p client flag ctx = .error e) :
    IntEvaluation p client flag d ctx = errorDetail d e := by
  unfold IntEvaluation
  rw [h]

theorem ObjectEvaluation_of_error (p : ProviderModel) (client : ClientFn)
    (flag : String) (d : Payload) (ctx : FlattenedContext) (e : ErrorCode)
    (h : evaluateFlag p client flag ctx = .error e) :
    ObjectEvaluation p client flag d ctx = errorDetail d e := by
  unfold ObjectEvaluation
  rw [h]

theorem evaluateFlag_some_key_ne_off (p : ProviderModel) (client : ClientFn)
    (flag : String) (ctx : FlattenedContext) (v : Variant)
    (h : evaluateFlag p client flag ctx = .ok (some v)) :
    v.key ≠ variantKeyOff := by
  unfold evaluateFlag at h
  split at h
  · exact absurd h (by simp)
  · cases htu : toAmplitudeUser p.config ctx with
    | error e => rw [htu] at h; exact absurd h (by simp)
    | ok user =>
      rw [htu] at h; dsimp only at h
      cases hc : client user with
      | error msg => rw [hc] at h; exact absurd h (by simp)
      | ok vs =>
        rw [hc] at h; dsimp only at h
        cases hm : mapGet vs flag with
        | none => rw [hm] at h; exact absurd h (by simp)
        | some w =>
          rw [hm] at h; dsimp only at h
          by_cases hk : w.key = variantKeyOff
          · rw [if_pos hk] at h; exact absurd h (by simp)
          · rw [if_neg hk] at h
            have hw : w = v := by
              have := h
              simp only [Except.ok.injEq, Option.some.injEq] at this
              exact this
            rw [← hw]
            exact hk

/- ===================================================================
   Claim theorems.
   =================================================================== -/

/-- C1: every failure of a typed evaluation call is converted into a defaulted
result: the caller-supplied default is returned with reason ERROR and the
error code of the failing stage — ProviderNotReady when the provider is not
ready (General in the explicit error state), InvalidContext when the subject
record cannot be built, General when the remote evaluate call fails, and
FlagNotFound when the flag is absent from the returned variant map.  The
evaluations are total functions, so no call escapes with an exception. -/
theorem c1_error_defaulting (p : ProviderModel) (client : ClientFn) (flag : String)
    (ctx : FlattenedContext) (db : Bool) (ds : String) (df : Rat) (di : Int)
    (dob : Payload) :
    (p.state = .notReady →
      BooleanEvaluation p client flag db ctx = errorDetail db .providerNotReady ∧
      StringEvaluation p client flag ds ctx = errorDetail ds .providerNotReady ∧
      FloatEvaluation p client flag df ctx = errorDetail df .providerNotReady ∧
      IntEvaluation p client flag di ctx = errorDetail di .providerNotReady ∧
      ObjectEvaluation p client flag dob ctx = errorDetail dob .providerNotReady) ∧
    (p.state = .errorState →
      BooleanEvaluation p client flag db ctx = errorDetail db .general ∧
      StringEvaluation p client flag ds ctx = errorDetail ds .general ∧
      FloatEvaluation p client flag df ctx = errorDetail df .general ∧
      IntEvaluation p client flag di ctx = errorDetail di .general ∧
      ObjectEvaluation p client flag dob ctx = errorDetail dob .general) ∧
    (∀ e : UserError, p.state = .ready → toAmplitudeUser p.config ctx = .error e →
      BooleanEvaluation p client flag db ctx = errorDetail db .invalidContext ∧
      StringEvaluation p client flag ds ctx = errorDetail ds .invalidContext ∧
      FloatEvaluation p client flag df ctx = errorDetail df .invalidContext ∧
      IntEvaluation p client flag di ctx = errorDetail di .invalidContext ∧
      ObjectEvaluation p client flag dob ctx = errorDetail dob .invalidContext) ∧
    (∀ (user : User) (msg : String), p.state = .ready →
      toAmplitudeUser p.config ctx = .ok user → client user = .error msg →
      BooleanEvaluation p client flag db ctx = errorDetail db .general ∧
      StringEvaluation p client flag ds ctx = errorDetail ds .general ∧
      FloatEvaluation p client flag df ctx = errorDetail df .general ∧
      IntEvaluation p client flag di ctx = errorDetail di .general ∧
      ObjectEvaluation p client flag dob ctx = errorDetail dob .general) ∧
    (∀ (user : User) (variants : List (String × Variant)), p.state = .ready →
      toAmplitudeUser p.config ctx = .ok user → client user = .ok variants →
      mapGet variants flag = none →
      BooleanEvaluation p client flag db ctx = errorDetail db .flagNotFound ∧
      StringEvaluation p client flag ds ctx = errorDetail ds .flagNotFound ∧
      FloatEvaluation p client flag df ctx = errorDetail df .flagNotFound ∧
      IntEvaluation p client flag di ctx = errorDetail di .flagNotFound ∧
      ObjectEvaluation p client flag dob ctx = errorDetail dob .flagNotFound) := by
  refine ⟨?_, ?_, ?_, ?_, ?_⟩
  · intro hs
    have h : evaluateFlag p client flag ctx = .error .providerNotReady := by
      rw [evaluateFlag_of_not_ready p client flag ctx (by simp [hs])]
      simp [stateError, hs]
    exact ⟨BooleanEvaluation_of_error _ _ _ _ _ _ h, StringEvaluation_of_error _ _ _ _ _ _ h,
           FloatEvaluation_of_error _ _ _ _ _ _ h, IntEvaluation_of_error _ _ _ _ _ _ h,
           ObjectEvaluation_of_error _ _ _ _ _ _ h⟩
  · intro hs
    have h : evaluateFlag p client flag ctx = .error .general := by
      rw [evaluateFlag_of_not_ready p client flag ctx (by simp [hs])]
      simp [stateError, hs]
    exact ⟨BooleanEvaluation_of_error _ _ _ _ _ _ h, StringEvaluation_of_error _ _ _ _ _ _ h,
           FloatEvaluation_of_error _ _ _ _ _ _ h, IntEvaluation_of_error _ _ _ _ _ _ h,
           ObjectEvaluation_of_error _ _ _ _ _ _ h⟩
  · intro e hs hu
    have h := evaluateFlag_of_user_error p client flag ctx e hs hu
    exact ⟨BooleanEvaluation_of_error _ _ _ _ _ _ h, StringEvaluation_of_error _ _ _ _ _ _ h,
           FloatEvaluation_of_error _ _ _ _ _ _ h, IntEvaluation_of_error _ _ _ _ _ _ h,
           ObjectEvaluation_of_error _ _ _ _ _ _ h⟩
  · intro user msg hs hu hc
    have h := evaluateFlag_of_client_error p client flag ctx user msg hs hu hc
    exact ⟨BooleanEvaluation_of_error _ _ _ _ _ _ h, StringEvaluation_of_error _ _ _ _ _ _ h,
           FloatEvaluation_of_error _ _ _ _ _ _ h, IntEvaluation_of_error _ _ _ _ _ _ h,
           ObjectEvaluation_of_error _ _ _ _ _ _ h⟩
  · intro user variants hs hu hc hm
    have h := evaluateFlag_of_flag_missing p client flag ctx user variants hs hu hc hm
    exact ⟨BooleanEvaluation_of_error _ _ _ _ _ _ h, StringEvaluation_of_error _ _ _ _ _ _ h,
           FloatEvaluation_of_error _ _ _ _ _ _ h, IntEvaluation_of_error _ _ _ _ _ _ h,
           ObjectEvaluation_of_error _ _ _ _ _ _ h⟩

/-- A minimal key map binding only the canonical user id, used by concrete
witnesses. -/
def cfgW : ProviderConfig := { keyMap := [(KeyUserID, KeyUserID)], userNormalizer := none }

/-- The user record produced from the context `[(user_id, "u")]` under
`cfgW`. -/
def userW : User :=
  { userId := "u", deviceId := "", country := "", region := "", dma := "",
    city := "", language := "", platform := "", version := "", os := "",
    deviceManufacturer := "", deviceBrand := "", deviceModel := "",
    carrier := "", library := "", userProperties := none,
    groupProperties := none, groups := none, cohortIds := none,
    groupCohortIds := none }

def ctxW : FlattenedContext := [(KeyUserID, .str "u")]

theorem c1_error_defaulting_witness :
    (BooleanEvaluation { state := .notReady, config := cfgW } (fun _ => .ok []) "f" false [] =
      errorDetail false .providerNotReady) ∧
    (StringEvaluation { state := .errorState, config := cfgW } (fun _ => .ok []) "f" "x" [] =
      errorDetail "x" .general) ∧
    (FloatEvaluation { state := .ready, config := cfgW } (fun _ => .ok []) "f" 0 [] =
      errorDetail 0 .invalidContext) ∧
    (IntEvaluation { state := .ready, config := cfgW } (fun _ => .error "boom") "f" 7 ctxW =
      errorDetail 7 .general) ∧
    (ObjectEvaluation { state := .ready, config := cfgW } (fun _ => .ok []) "f" .null ctxW =
      errorDetail .null .flagNotFound) :=
  ⟨((c1_error_defaulting { state := .notReady, config := cfgW }
      (fun _ => .ok []) "f" [] false "x" 0 7 .null).1 rfl).1,
   ((c1_error_defaulting { state := .errorState, config := cfgW }
      (fun _ => .ok []) "f" [] false "x" 0 7 .null).2.1 rfl).2.1,
   ((c1_error_defaulting { state := .ready, config := cfgW }
      (fun _ => .ok []) "f" [] false "x" 0 7 .null).2.2.1
      UserError.missingIdentity rfl rfl).2.2.1,
   ((c1_error_defaulting { state := .ready, config := cfgW }
      (fun _ => .error "boom") "f" ctxW false "x" 0 7 .null).2.2.2.1
      userW "boom" rfl rfl rfl).2.2.2.1,
   ((c1_error_defaulting { state := .ready, config := cfgW }
      (fun _ => .ok []) "f" ctxW false "x" 0 7 .null).2.2.2.2
      userW [] rfl rfl rfl rfl).2.2.2.2⟩

/-- C2: for a successfully fetched non-off variant, boolean evaluation treats
any non-boolean, non-absent payload (for example the string "some-string") as
the truthy signal and resolves to true with the variant attached — not an
error and not the default — while string evaluation of a non-string,
non-absent payload returns the default with reason ERROR and TypeMismatch; a
native boolean payload is returned as the resolved boolean. -/
theorem c2_boolean_asymmetry (p : ProviderModel) (client : ClientFn) (flag : String)
    (ctx : FlattenedContext) (db : Bool) (ds : String) (v : Variant)
    (h : evaluateFlag p client flag ctx = .ok (some v)) :
    (v.payload = .str "some-string" →
      BooleanEvaluation p client flag db ctx = resolvedDetail true v) ∧
    ((∀ b, v.payload ≠ .bool b) → v.payload ≠ .null →
      BooleanEvaluation p client flag db ctx = resolvedDetail true v) ∧
    ((∀ s, v.payload ≠ .str s) → v.payload ≠ .null →
      StringEvaluation p client flag ds ctx = errorDetail ds .typeMismatch) ∧
    (∀ b, v.payload = .bool b →
      BooleanEvaluation p client flag db ctx = resolvedDetail b v) := by
  have hk := evaluateFlag_some_key_ne_off p client flag ctx v h
  refine ⟨?_, ?_, ?_, ?_⟩
  · intro hp
    unfold BooleanEvaluation
    rw [h]; dsimp only
    rw [if_neg hk, hp]
  · intro hnb hnn
    unfold BooleanEvaluation
    rw [h]; dsimp only
    rw [if_neg hk]
    cases hp : v.payload with
    | bool b => exact absurd hp (hnb b)
    | num x => rfl
    | jsonNum s => rfl
    | str s => rfl
    | arr elems => rfl
    | obj fields => rfl
    | null => exact absurd hp hnn
  · intro hns hnn
    unfold StringEvaluation
    rw [h]; dsimp only
    cases hp : v.payload with
    | bool b => rfl
    | num x => rfl
    | jsonNum s => rfl
    | str s => exact absurd hp (hns s)
    | arr elems => rfl
    | obj fields => rfl
    | null => exact absurd hp hnn
  · intro b hp
    unfold BooleanEvaluation
    rw [h]; dsimp only
    rw [if_neg hk, hp]

def pW : ProviderModel := { state := .ready, config := cfgW }

def vSomeString : Variant := ⟨"treatment", "value", .str "some-string", []⟩

def vBoolFalse : Variant := ⟨"on", "on", .bool false, []⟩

theorem c2_boolean_asymmetry_witness :
    BooleanEvaluation pW (fun _ => .ok [("f", vSomeString)]) "f" false ctxW =
      resolvedDetail true vSomeString ∧
    StringEvaluation pW (fun _ => .ok [("f", vBoolFalse)]) "f" "x" ctxW =
      errorDetail "x" .typeMismatch ∧
    BooleanEvaluation pW (fun _ => .ok [("f", vBoolFalse)]) "f" true ctxW =
      resolvedDetail false vBoolFalse :=
  ⟨(c2_boolean_asymmetry pW (fun _ => .ok [("f", vSomeString)]) "f" ctxW false "x"
      vSomeString rfl).1 rfl,
   (c2_boolean_asymmetry pW (fun _ => .ok [("f", vBoolFalse)]) "f" ctxW false "x"
      vBoolFalse rfl).2.2.1
      (fun s hx => Payload.noConfusion hx) (fun hx => Payload.noConfusion hx),
   (c2_boolean_asymmetry pW (fun _ => .ok [("f", vBoolFalse)]) "f" ctxW true "x"
      vBoolFalse rfl).2.2.2 false rfl⟩

/-- C3: for a non-off variant, float evaluation resolves a native float64
payload directly; a numeric decimal string (the service-encoded json.Number
form) is parsed and resolved, with TypeMismatch exactly when the parse fails;
an absent payload defaults with reason DEFAULT; and every other payload shape
(booleans, plain strings, arrays, objects) is a TypeMismatch. -/
theorem c3_float_coercion (p : ProviderModel) (client : ClientFn) (flag : String)
    (ctx : FlattenedContext) (df : Rat) (v : Variant)
    (h : evaluateFlag p client flag ctx = .ok (some v)) :
    (∀ x, v.payload = .num x →
      FloatEvaluation p client flag df ctx = resolvedDetail x v) ∧
    (∀ s x, v.payload = .jsonNum s → parseFloatDec s = some x →
      FloatEvaluation p client flag df ctx = resolvedDetail x v) ∧
    (∀ s, v.payload = .jsonNum s → parseFloatDec s = none →
      FloatEvaluation p client flag df ctx = errorDetail df .typeMismatch) ∧
    (v.payload = .null →
      FloatEvaluation p client flag df ctx = defaultDetail df) ∧
    (∀ b, v.payload = .bool b →
      FloatEvaluation p client flag df ctx = errorDetail df .typeMismatch) ∧
    (∀ s, v.payload = .str s →
      FloatEvaluation p client flag df ctx = errorDetail df .typeMismatch) ∧
    (∀ es, v.payload = .arr es →
      FloatEvaluation p client flag df ctx = errorDetail df .typeMismatch) ∧
    (∀ fs, v.payload = .obj fs →
      FloatEvaluation p client flag df ctx = errorDetail df .typeMismatch) := by
  refine ⟨?_, ?_, ?_, ?_, ?_, ?_, ?_, ?_⟩
  · intro x hp
    unfold FloatEvaluation
    rw [h]; dsimp only
    rw [hp]
  · intro s x hp hparse
    unfold FloatEvaluation
    rw [h]; dsimp only
    rw [hp]; dsimp only
    rw [hparse]
  · intro s hp hparse
    unfold FloatEvaluation
    rw [h]; dsimp only
    rw [hp]; dsimp only
    rw [hparse]
  · intro hp
    unfold FloatEvaluation
    rw [h]; dsimp only
    rw [hp]
  · intro b hp
    unfold FloatEvaluation
    rw [h]; dsimp only
    rw [hp]
  · intro s hp
    unfold FloatEvaluation
    rw [h]; dsimp only
    rw [hp]
  · intro es hp
    unfold FloatEvaluation
    rw [h]; dsimp only
    rw [hp]
  · intro fs hp
    unfold FloatEvaluation
    rw [h]; dsimp only
    rw [hp]

def vJsonNum : Variant := ⟨"v", "val", .jsonNum "1.5", []⟩

def vJsonBad : Variant := ⟨"v", "val", .jsonNum "abc", []⟩

def vNullPayload : Variant := ⟨"v", "val", .null, []⟩

theorem c3_float_coercion_witness :
    FloatEvaluation pW (fun _ => .ok [("f", vJsonNum)]) "f" 0 ctxW =
      resolvedDetail (mkRat 3 2) vJsonNum ∧
    FloatEvaluation pW (fun _ => .ok [("f", vJsonBad)]) "f" 7 ctxW =
      errorDetail 7 .typeMismatch ∧
    FloatEvaluation pW (fun _ => .ok [("f", vNullPayload)]) "f" 9 ctxW =
      defaultDetail 9 :=
  ⟨(c3_float_coercion pW (fun _ => .ok [("f", vJsonNum)]) "f" ctxW 0 vJsonNum
      rfl).2.1 "1.5" (mkRat 3 2) rfl (by decide),
   (c3_float_coercion pW (fun _ => .ok [("f", vJsonBad)]) "f" ctxW 7 vJsonBad
      rfl).2.2.1 "abc" rfl (by decide),
   (c3_float_coercion pW (fun _ => .ok [("f", vNullPayload)]) "f" ctxW 9 vNullPayload
      rfl).2.2.2.1 rfl⟩

/-- C7: for a non-off variant, integer evaluation truncates a native float64
payload toward zero (the result is the floor for non-negative values and the
ceiling for non-positive values), parses a string or json.Number payload in
base 10 with TypeMismatch on parse failure, defaults with reason DEFAULT on an
absent payload, and returns TypeMismatch on every other payload shape. -/
theorem c7_int_coercion (p : ProviderModel) (client : ClientFn) (flag : String)
    (ctx : FlattenedContext) (di : Int) (v : Variant)
    (h : evaluateFlag p client flag ctx = .ok (some v)) :
    (∀ x, v.payload = .num x →
      IntEvaluation p client flag di ctx = resolvedDetail (truncToInt64 x) v) ∧
    (∀ x : Rat, 0 ≤ x → truncToInt64 x = ⌊x⌋) ∧
    (∀ x : Rat, x ≤ 0 → truncToInt64 x = ⌈x⌉) ∧
    (∀ s n, v.payload = .str s → parseInt64 s = some n →
      IntEvaluation p client flag di ctx = resolvedDetail n v) ∧
    (∀ s, v.payload = .str s → parseInt64 s = none →
      IntEvaluation p client flag di ctx = errorDetail di .typeMismatch) ∧
    (∀ s n, v.payload = .jsonNum s → parseInt64 s = some n →
      IntEvaluation p client flag di ctx = resolvedDetail n v) ∧
    (∀ s, v.payload = .jsonNum s → parseInt64 s = none →
      IntEvaluation p client flag di ctx = errorDetail di .typeMismatch) ∧
    (v.payload = .null →
      IntEvaluation p client flag di ctx = defaultDetail di) ∧
    (∀ b, v.payload = .bool b →
      IntEvaluation p client flag di ctx = errorDetail di .typeMismatch) ∧
    (∀ es, v.payload = .arr es →
      IntEvaluation p client flag di ctx = errorDetail di .typeMismatch) ∧
    (∀ fs, v.payload = .obj fs →
      IntEvaluation p client flag di ctx = errorDetail di .typeMismatch) := by
  refine ⟨?_, ?_, ?_, ?_, ?_, ?_, ?_, ?_, ?_, ?_, ?_⟩
  · intro x hp
    unfold IntEvaluation
    rw [h]; dsimp only
    rw [hp]
  · intro x hx
    unfold truncToInt64
    rw [Rat.floor_def]
    exact Int.tdiv_eq_ediv (Rat.num_nonneg.mpr hx) (by positivity)
  · intro x hx
    have h2 : (-x).num.tdiv ((-x).den : Int) = ⌊-x⌋ := by
      rw [Rat.floor_def]
      exact Int.tdiv_eq_ediv (Rat.num_nonneg.mpr (by linarith)) (by positivity)
    rw [Rat.neg_num, Rat.neg_den] at h2
    have h3 : (⌈x⌉ : Int) = -⌊-x⌋ := by
      have h4 := @Int.ceil_neg Rat _ _ (-x)
      rwa [neg_neg] at h4
    unfold truncToInt64
    rw [h3, ← h2]
    simp [Int.neg_tdiv]
  · intro s n hp hparse
    unfold IntEvaluation
    rw [h]; dsimp only
    rw [hp]; dsimp only
    rw [hparse]
  · intro s hp hparse
    unfold IntEvaluation
    rw [h]; dsimp only
    rw [hp]; dsimp only
    rw [hparse]
  · intro s n hp hparse
    unfold IntEvaluation
    rw [h]; dsimp only
    rw [hp]; dsimp only
    rw [hparse]
  · intro s hp hparse
    unfold IntEvaluation
    rw [h]; dsimp only
    rw [hp]; dsimp only
    rw [hparse]
  · intro hp
    unfold IntEvaluation
    rw [h]; dsimp only
    rw [hp]
  · intro b hp
    unfold IntEvaluation
    rw [h]; dsimp only
    rw [hp]
  · intro es hp
    unfold IntEvaluation
    rw [h]; dsimp only
    rw [hp]
  · intro fs hp
    unfold IntEvaluation
    rw [h]; dsimp only
    rw [hp]

def vInt456 : Variant := ⟨"v", "val", .str "456", []⟩

def vIntBad : Variant := ⟨"v", "val", .str "not-an-int", []⟩

def vNum157 : Variant := ⟨"v", "val", .num (mkRat 157 10), []⟩

theorem c7_int_coercion_witness :
    IntEvaluation pW (fun _ => .ok [("f", vInt456)]) "f" 0 ctxW =
      resolvedDetail 456 vInt456 ∧
    IntEvaluation pW (fun _ => .ok [("f", vIntBad)]) "f" 7 ctxW =
      errorDetail 7 .typeMismatch ∧
    IntEvaluation pW (fun _ => .ok [("f", vNum157)]) "f" 0 ctxW =
      resolvedDetail (truncToInt64 (mkRat 157 10)) vNum157 ∧
    truncToInt64 (mkRat 157 10) = ⌊mkRat 157 10⌋ :=
  ⟨(c7_int_coercion pW (fun _ => .ok [("f", vInt456)]) "f" ctxW 0 vInt456
      rfl).2.2.2.1 "456" 456 rfl (by decide),
   (c7_int_coercion pW (fun _ => .ok [("f", vIntBad)]) "f" ctxW 7 vIntBad
      rfl).2.2.2.2.1 "not-an-int" rfl (by decide),
   (c7_int_coercion pW (fun _ => .ok [("f", vNum157)]) "f" ctxW 0 vNum157
      rfl).1 (mkRat 157 10) rfl,
   (c7_int_coercion pW (fun _ => .ok [("f", vNum157)]) "f" ctxW 0 vNum157
      rfl).2.1 (mkRat 157 10) (by decide)⟩

/-- Every typed-evaluation result is one of the three shapes: defaulted on
error, intentionally defaulted, or resolved. -/
theorem detail_shape_cases {α : Type} (d : ResolutionDetail α) (dv : α)
    (hshape : (∃ e, d = errorDetail dv e) ∨ d = defaultDetail dv ∨
      ∃ x v, d = resolvedDetail x v) :
    (d.reason = .default ∨ d.reason = .error) →
    d.variant = "" ∧ d.flagMetadata = none := by
  intro hr
  rcases hshape with ⟨e, he⟩ | hd | ⟨x, v, hres⟩
  · subst he; exact ⟨rfl, rfl⟩
  · subst hd; exact ⟨rfl, rfl⟩
  · subst hres
    rcases hr with hr | hr <;> exact absurd hr (by simp [resolvedDetail])

theorem BooleanEvaluation_shape (p : ProviderModel) (client : ClientFn)
    (flag : String) (d : Bool) (ctx : FlattenedContext) :
    (∃ e, BooleanEvaluation p client flag d ctx = errorDetail d e) ∨
    BooleanEvaluation p client flag d ctx = defaultDetail d ∨
    ∃ x v, BooleanEvaluation p client flag d ctx = resolvedDetail x v := by
  unfold BooleanEvaluation
  cases hv : evaluateFlag p client flag ctx with
  | error e => exact .inl ⟨e, rfl⟩
  | ok ov =>
    cases ov with
    | none => exact .inr (.inl rfl)
    | some v =>
      dsimp only
      by_cases hk : v.key = variantKeyOff
      · rw [if_pos hk]; exact .inr (.inl rfl)
      · rw [if_neg hk]
        cases hp : v.payload with
        | bool b => exact .inr (.inr ⟨b, v, rfl⟩)
        | num x => exact .inr (.inr ⟨true, v, rfl⟩)
        | jsonNum s => exact .inr (.inr ⟨true, v, rfl⟩)
        | str s => exact .inr (.inr ⟨true, v, rfl⟩)
        | arr es => exact .inr (.inr ⟨true, v, rfl⟩)
        | obj fs => exact .inr (.inr ⟨true, v, rfl⟩)
        | null => exact .inr (.inr ⟨true, v, rfl⟩)

theorem StringEvaluation_shape (p : ProviderModel) (client : ClientFn)
    (flag : String) (d : String) (ctx : FlattenedContext) :
    (∃ e, StringEvaluation p client flag d ctx = errorDetail d e) ∨
    StringEvaluation p client flag d ctx = defaultDetail d ∨
    ∃ x v, StringEvaluation p client flag d ctx = resolvedDetail x v := by
  unfold StringEvaluation
  cases hv : evaluateFlag p client flag ctx with
  | error e => exact .inl ⟨e, rfl⟩
  | ok ov =>
    cases ov with
    | none => exact .inr (.inl rfl)
    | some v =>
      dsimp only
      cases hp : v.payload with
      | bool b => exact .inl ⟨.typeMismatch, rfl⟩
      | num x => exact .inl ⟨.typeMismatch, rfl⟩
      | jsonNum s => exact .inl ⟨.typeMismatch, rfl⟩
      | str s => exact .inr (.inr ⟨s, v, rfl⟩)
      | arr es => exact .inl ⟨.typeMismatch, rfl⟩
      | obj fs => exact .inl ⟨.typeMismatch, rfl⟩
      | null => exact .inr (.inl rfl)

theorem FloatEvaluation_shape (p : ProviderModel) (client : ClientFn)
    (flag : String) (d : Rat) (ctx : FlattenedContext) :
    (∃ e, FloatEvaluation p client flag d ctx = errorDetail d e) ∨
    FloatEvaluation p client flag d ctx = defaultDetail d ∨
    ∃ x v, FloatEvaluation p client flag d ctx = resolvedDetail x v := by
  unfold FloatEvaluation
  cases hv : evaluateFlag p client flag ctx with
  | error e => exact .inl ⟨e, rfl⟩
  | ok ov =>
    cases ov with
    | none => exact .inr (.inl rfl)
    | some v =>
      dsimp only
      cases hp : v.payload with
      | bool b => exact .inl ⟨.typeMismatch, rfl⟩
      | num x => exact .inr (.inr ⟨x, v, rfl⟩)
      | jsonNum s =>
        dsimp only
        cases hq : parseFloatDec s with
        | some x => exact .inr (.inr ⟨x, v, rfl⟩)
        | none => exact .inl ⟨.typeMismatch, rfl⟩
      | str s => exact .inl ⟨.typeMismatch, rfl⟩
      | arr es => exact .inl ⟨.typeMismatch, rfl⟩
      | obj fs => exact .inl ⟨.typeMismatch, rfl⟩
      | null => exact .inr (.inl rfl)

theorem IntEvaluation_shape (p : ProviderModel) (client : ClientFn)
    (flag : String) (d : Int) (ctx : FlattenedContext) :
    (∃ e, IntEvaluation p client flag d ctx = errorDetail d e) ∨
    IntEvaluation p client flag d ctx = defaultDetail d ∨
    ∃ x v, IntEvaluation p client flag d ctx = resolvedDetail x v := by
  unfold IntEvaluation
  cases hv : evaluateFlag p client flag ctx with
  | error e => exact .inl ⟨e, rfl⟩
  | ok ov =>
    cases ov with
    | none => exact .inr (.inl rfl)
    | some v =>
      dsimp only
      cases hp : v.payload with
      | bool b => exact .inl ⟨.typeMismatch, rfl⟩
      | num x => exact .inr (.inr ⟨truncToInt64 x, v, rfl⟩)
      | jsonNum s =>
        dsimp only
        cases hq : parseInt64 s with
        | some n => exact .inr (.inr ⟨n, v, rfl⟩)
        | none => exact .inl ⟨.typeMismatch, rfl⟩
      | str s =>
        dsimp only
        cases hq : parseInt64 s with
        | some n => exact .inr (.inr ⟨n, v, rfl⟩)
        | none => exact .inl ⟨.typeMismatch, rfl⟩
      | arr es => exact .inl ⟨.typeMismatch, rfl⟩
      | obj fs => exact .inl ⟨.typeMismatch, rfl⟩
      | null => exact .inr (.inl rfl)

theorem ObjectEvaluation_shape (p : ProviderModel) (client : ClientFn)
    (flag : String) (d : Payload) (ctx : FlattenedContext) :
    (∃ e, ObjectEvaluation p client flag d ctx = errorDetail d e) ∨
    ObjectEvaluation p client flag d ctx = defaultDetail d ∨
    ∃ x v, ObjectEvaluation p client flag d ctx = resolvedDetail x v := by
  unfold ObjectEvaluation
  cases hv : evaluateFlag p client flag ctx with
  | error e => exact .inl ⟨e, rfl⟩
  | ok ov =>
    cases ov with
    | none => exact .inr (.inl rfl)
    | some v =>
      dsimp only
      exact .inr (.inr ⟨_, v, rfl⟩)

/-- C4 (amended): a result whose reason is DEFAULT or ERROR never carries a
variant key or flag metadata, for every one of the five typed evaluations; but
object evaluation of a non-off variant with an absent payload returns the
caller's default value as a resolved-shaped outcome — reason left unset, with
the variant key and the variant metadata attached — rather than a
DEFAULT-reason result. -/
theorem c4_defaulted_results_carry_no_variant (p : ProviderModel) (client : ClientFn)
    (flag : String) (ctx : FlattenedContext) :
    (∀ db : Bool, ((BooleanEvaluation p client flag db ctx).reason = .default ∨
        (BooleanEvaluation p client flag db ctx).reason = .error) →
      (BooleanEvaluation p client flag db ctx).variant = "" ∧
      (BooleanEvaluation p client flag db ctx).flagMetadata = none) ∧
    (∀ ds : String, ((StringEvaluation p client flag ds ctx).reason = .default ∨
        (StringEvaluation p client flag ds ctx).reason = .error) →
      (StringEvaluation p client flag ds ctx).variant = "" ∧
      (StringEvaluation p client flag ds ctx).flagMetadata = none) ∧
    (∀ df : Rat, ((FloatEvaluation p client flag df ctx).reason = .default ∨
        (FloatEvaluation p client flag df ctx).reason = .error) →
      (FloatEvaluation p client flag df ctx).variant = "" ∧
      (FloatEvaluation p client flag df ctx).flagMetadata = none) ∧
    (∀ di : Int, ((IntEvaluation p client flag di ctx).reason = .default ∨
        (IntEvaluation p client flag di ctx).reason = .error) →
      (IntEvaluation p client flag di ctx).variant = "" ∧
      (IntEvaluation p client flag di ctx).flagMetadata = none) ∧
    (∀ dob : Payload, ((ObjectEvaluation p client flag dob ctx).reason = .default ∨
        (ObjectEvaluation p client flag dob ctx).reason = .error) →
      (ObjectEvaluation p client flag dob ctx).variant = "" ∧
      (ObjectEvaluation p client flag dob ctx).flagMetadata = none) ∧
    (∀ (v : Variant) (dob : Payload), evaluateFlag p client flag ctx = .ok (some v) →
      v.payload = .null →
      ObjectEvaluation p client flag dob ctx =
        { value := dob, variant := v.key, reason := .unset, errorCode := none,
          flagMetadata := some (variantMetadata v) }) := by
  refine ⟨?_, ?_, ?_, ?_, ?_, ?_⟩
  · intro db
    exact detail_shape_cases _ db (BooleanEvaluation_shape p client flag db ctx)
  · intro ds
    exact detail_shape_cases _ ds (StringEvaluation_shape p client flag ds ctx)
  · intro df
    exact detail_shape_cases _ df (FloatEvaluation_shape p client flag df ctx)
  · intro di
    exact detail_shape_cases _ di (IntEvaluation_shape p client flag di ctx)
  · intro dob
    exact detail_shape_cases _ dob (ObjectEvaluation_shape p client flag dob ctx)
  · intro v dob h hp
    unfold ObjectEvaluation
    rw [h]; dsimp only
    rw [hp]

/-- C4 counterexample: object evaluation of the non-off variant `v` with an
absent payload returns the caller's default value, but with the variant key
and metadata attached and the reason left unset — not the DEFAULT-reason,
metadata-free result the claim describes. -/
theorem c4_counterexample :
    (ObjectEvaluation pW (fun _ => .ok [("f", vNullPayload)]) "f" (Payload.str "d") ctxW).reason
        = Reason.unset ∧
    (ObjectEvaluation pW (fun _ => .ok [("f", vNullPayload)]) "f" (Payload.str "d") ctxW).variant
        = "v" ∧
    (ObjectEvaluation pW (fun _ => .ok [("f", vNullPayload)]) "f" (Payload.str "d") ctxW).flagMetadata
        = some { key := "v", value := "val" } ∧
    (ObjectEvaluation pW (fun _ => .ok [("f", vNullPayload)]) "f" (Payload.str "d") ctxW).value
        = Payload.str "d" ∧
    Reason.unset ≠ Reason.default :=
  ⟨rfl, rfl, rfl, rfl, by decide⟩

def vOff : Variant := ⟨"off", "", .null, []⟩

theorem c4_defaulted_results_carry_no_variant_witness :
    ((BooleanEvaluation pW (fun _ => .ok [("f", vOff)]) "f" true ctxW).variant = "" ∧
     (BooleanEvaluation pW (fun _ => .ok [("f", vOff)]) "f" true ctxW).flagMetadata = none) ∧
    ObjectEvaluation pW (fun _ => .ok [("f", vNullPayload)]) "f" (Payload.str "d") ctxW =
      { value := Payload.str "d", variant := vNullPayload.key, reason := .unset,
        errorCode := none, flagMetadata := some (variantMetadata vNullPayload) } :=
  ⟨(c4_defaulted_results_carry_no_variant pW (fun _ => .ok [("f", vOff)]) "f" ctxW).1
      true (Or.inl rfl),
   (c4_defaulted_results_carry_no_variant pW (fun _ => .ok [("f", vNullPayload)]) "f"
      ctxW).2.2.2.2.2 vNullPayload (Payload.str "d") rfl rfl⟩

/-- buildUser never reports the missing-identity error: its failures are the
decode and hook errors; the identity check happens afterwards in
`toAmplitudeUser`. -/
theorem buildUser_no_missingIdentity (cfg : ProviderConfig) (ctx : FlattenedContext) :
    buildUser cfg ctx ≠ .error .missingIdentity := by
  intro h
  unfold buildUser at h
  split at h
  · simp at h
  · split at h
    · simp at h
    · split at h
      · simp at h
      · simp at h

/-- C5: the subject-record construction fails with the missing-identity error
exactly when, after normalization (with the targeting-key alias of the
default table) and the user-normalizer hook, both the user id and the device
id are empty; when it succeeds it returns the built user unchanged; and any
failure of `toAmplitudeUser` makes every typed evaluation return the
caller's default with reason ERROR and error code INVALID_CONTEXT. -/
theorem c5_identity_check (cfg : ProviderConfig) (ctx : FlattenedContext) :
    (toAmplitudeUser cfg ctx = .error .missingIdentity ↔
      ∃ u, buildUser cfg ctx = .ok u ∧ u.userId = "" ∧ u.deviceId = "") ∧
    (∀ u, buildUser cfg ctx = .ok u → (u.userId ≠ "" ∨ u.deviceId ≠ "") →
      toAmplitudeUser cfg ctx = .ok u) ∧
    mapGet DefaultKeyMap TargetingKey = some KeyUserID ∧
    (∀ (p : ProviderModel) (client : ClientFn) (flag : String) (e : UserError)
        (db : Bool) (ds : String) (df : Rat) (di : Int) (dob : Payload),
      p.config = cfg → p.state = .ready → toAmplitudeUser cfg ctx = .error e →
      BooleanEvaluation p client flag db ctx = errorDetail db .invalidContext ∧
      StringEvaluation p client flag ds ctx = errorDetail ds .invalidContext ∧
      FloatEvaluation p client flag df ctx = errorDetail df .invalidContext ∧
      IntEvaluation p client flag di ctx = errorDetail di .invalidContext ∧
      ObjectEvaluation p client flag dob ctx = errorDetail dob .invalidContext) := by
  refine ⟨⟨?_, ?_⟩, ?_, ?_, ?_⟩
  · intro h
    unfold toAmplitudeUser at h
    cases hb : buildUser cfg ctx with
    | error e =>
      rw [hb] at h
      have he : e = .missingIdentity := by
        simpa using h
      rw [he] at hb
      exact absurd hb (buildUser_no_missingIdentity cfg ctx)
    | ok u =>
      rw [hb] at h; dsimp only at h
      by_cases hid : u.userId = "" ∧ u.deviceId = ""
      · exact ⟨u, rfl, hid.1, hid.2⟩
      · rw [if_neg hid] at h
        exact absurd h (by simp)
  · rintro ⟨u, hb, h1, h2⟩
    unfold toAmplitudeUser
    rw [hb]; dsimp only
    rw [if_pos ⟨h1, h2⟩]
  · intro u hb hne
    unfold toAmplitudeUser
    rw [hb]; dsimp only
    rw [if_neg (by tauto)]
  · decide
  · intro p client flag e db ds df di dob hcfg hs hu
    have h := evaluateFlag_of_user_error p client flag ctx e hs (by rw [hcfg]; exact hu)
    exact ⟨BooleanEvaluation_of_error _ _ _ _ _ _ h, StringEvaluation_of_error _ _ _ _ _ _ h,
           FloatEvaluation_of_error _ _ _ _ _ _ h, IntEvaluation_of_error _ _ _ _ _ _ h,
           ObjectEvaluation_of_error _ _ _ _ _ _ h⟩

/-- The provider configuration with the built-in alias table. -/
def cfgD : ProviderConfig := { keyMap := DefaultKeyMap, userNormalizer := none }

/-- The empty user record (all zero values). -/
def userEmpty : User :=
  { userId := "", deviceId := "", country := "", region := "", dma := "",
    city := "", language := "", platform := "", version := "", os := "",
    deviceManufacturer := "", deviceBrand := "", deviceModel := "",
    carrier := "", library := "", userProperties := none,
    groupProperties := none, groups := none, cohortIds := none,
    groupCohortIds := none }

/-- The user built from the context holding only the OpenFeature targeting
key, under the default key map. -/
def userTK : User := { userEmpty with userId := "user-1" }

theorem c5_identity_check_witness :
    toAmplitudeUser cfgD [] = .error .missingIdentity ∧
    BooleanEvaluation { state := .ready, config := cfgD } (fun _ => .ok []) "f" false [] =
      errorDetail false .invalidContext ∧
    toAmplitudeUser cfgD [(TargetingKey, .str "user-1")] = .ok userTK ∧
    mapGet DefaultKeyMap TargetingKey = some KeyUserID :=
  ⟨(c5_identity_check cfgD []).1.mpr ⟨userEmpty, rfl, rfl, rfl⟩,
   ((c5_identity_check cfgD []).2.2.2 { state := .ready, config := cfgD }
      (fun _ => .ok []) "f" .missingIdentity false "" 0 0 .null rfl rfl
      ((c5_identity_check cfgD []).1.mpr ⟨userEmpty, rfl, rfl, rfl⟩)).1,
   (c5_identity_check cfgD [(TargetingKey, .str "user-1")]).2.1 userTK rfl
      (Or.inl (by decide)),
   (c5_identity_check cfgD []).2.2.1⟩

/-- C6: every alias produced by the permutation generator for every canonical
key in the registry (the union of the user, event, and shared key lists) is
mapped by the default alias table to exactly that canonical key — no alias of
one key is left pointing at a different key by a build-order collision — and
the special targeting-key entry maps to the canonical user id. -/
theorem c6_alias_coverage :
    (∀ k ∈ allKeys, ∀ a ∈ makePermutations k, mapGet DefaultKeyMap a = some k) ∧
    mapGet DefaultKeyMap TargetingKey = some KeyUserID := by
  decide

theorem c6_alias_coverage_witness :
    mapGet DefaultKeyMap "userId" = some KeyUserID ∧
    mapGet DefaultKeyMap "group-cohort-ids" = some KeyGroupCohortIDSet :=
  ⟨c6_alias_coverage.1 KeyUserID (by decide) "userId" (by decide),
   c6_alias_coverage.1 KeyGroupCohortIDSet (by decide) "group-cohort-ids" (by decide)⟩

/-- C8 counterexample: the canonical key `group_cohort_ids` ends in the plural
suffix, but the spelling `<stem>Ids` (with only the `I` capitalized, i.e.
`group_cohortIds`) is not among its permutations — the generator emits
`group_cohortIDs` instead. -/
theorem c8_counterexample :
    KeyGroupCohortIDSet ∈ allKeys ∧
    (cutSuffix KeyGroupCohortIDSet "_ids").2 = true ∧
    (cutSuffix KeyGroupCohortIDSet "_ids").1 ++ "Ids" ∉
      makePermutations KeyGroupCohortIDSet := by
  decide

/-- C8 (amended): for every canonical key in the registry whose
underscore-form string ends in `_ids`, the permutation output additionally
contains `<stem>IDs` (with the suffix capitalized as `IDs`), lower-case
`<stem>-ids`, and lower-case `<stem>ids`, where `<stem>` is the string with
the `_ids` suffix removed. -/
theorem c8_plural_id_suffix_spellings :
    ∀ k ∈ allKeys, (cutSuffix k "_ids").2 = true →
      (cutSuffix k "_ids").1 ++ "IDs" ∈ makePermutations k ∧
      strToLower ((cutSuffix k "_ids").1 ++ "-ids") ∈ makePermutations k ∧
      strToLower ((cutSuffix k "_ids").1 ++ "ids") ∈ makePermutations k := by
  decide

theorem c8_plural_id_suffix_spellings_witness :
    (cutSuffix KeyCohortIDs "_ids").1 ++ "IDs" ∈ makePermutations KeyCohortIDs ∧
    strToLower ((cutSuffix KeyCohortIDs "_ids").1 ++ "-ids") ∈ makePermutations KeyCohortIDs ∧
    strToLower ((cutSuffix KeyCohortIDs "_ids").1 ++ "ids") ∈ makePermutations KeyCohortIDs :=
  c8_plural_id_suffix_spellings KeyCohortIDs (by decide) (by decide)

def cacheSetErrModel : CacheModel :=
  { get := fun _ => .ok none, set := fun _ _ => .error "cache set error" }

def cacheGetErrModel : CacheModel :=
  { get := fun _ => .error "cache get error", set := fun _ _ => .ok () }

def variantsFetched : List (String × Variant) :=
  [("flag-1", ⟨"on", "enabled", .null, []⟩)]

/-- C9: the code behavior at the failing input.  A cache Get error is
non-fatal (the evaluation falls through to the live fetch and succeeds), but a
cache Set error after a successful fetch is returned to the caller, discarding
the fetched variant map — contradicting the claim and the repository's own
test, which requires the evaluation to succeed when only the cache Set
fails. -/
theorem c9_cache_set_error_returned :
    remoteEvaluate (some cacheGetErrModel) (fun _ => "key") (fun _ => .ok variantsFetched)
      userW = .ok variantsFetched ∧
    remoteEvaluate (some cacheSetErrModel) (fun _ => "key") (fun _ => .ok variantsFetched)
      userW = .error "failed to store variants in cache" :=
  ⟨rfl, rfl⟩

/- ===================================================================
   Association-map lemmas for the user-properties merge (C10).
   =================================================================== -/

theorem mapGet_mapSet {β : Type} (m : List (String × β)) (k : String) (v : β)
    (x : String) :
    mapGet (mapSet m k v) x = if k = x then some v else mapGet m x := by
  induction m with
  | nil =>
    by_cases h : k = x <;> simp [mapSet, mapGet, h]
  | cons kv rest ih =>
    obtain ⟨k0, v0⟩ := kv
    simp only [mapSet]
    by_cases h0 : k0 = k
    · subst h0
      by_cases hx : k0 = x <;> simp [mapGet, hx]
    · rw [if_neg h0]
      simp only [mapGet, ih]
      by_cases hx : k0 = x
      · subst hx
        rw [if_pos rfl, if_neg (fun hk => h0 hk.symm), if_pos rfl]
      · rw [if_neg hx, if_neg hx]

theorem mapGet_eq_none_of_not_mem {β : Type} (m : List (String × β)) (x : String)
    (h : x ∉ m.map Prod.fst) : mapGet m x = none := by
  induction m with
  | nil => rfl
  | cons kv rest ih =>
    obtain ⟨k0, v0⟩ := kv
    simp only [List.map, List.mem_cons] at h
    push_neg at h
    simp only [mapGet]
    rw [if_neg (fun hk => h.1 hk.symm)]
    exact ih h.2

theorem mem_keys_mapSet {β : Type} (m : List (String × β)) (k : String) (v : β)
    (x : String) :
    x ∈ (mapSet m k v).map Prod.fst ↔ x ∈ m.map Prod.fst ∨ x = k := by
  induction m with
  | nil => simp [mapSet]
  | cons kv rest ih =>
    obtain ⟨k0, v0⟩ := kv
    simp only [mapSet]
    by_cases h0 : k0 = k
    · subst h0
      simp only [List.map, List.mem_cons]
      tauto
    · rw [if_neg h0]
      simp only [List.map, List.mem_cons, ih]
      tauto

theorem mapSet_keys_nodup {β : Type} (m : List (String × β)) (k : String) (v : β)
    (h : (m.map Prod.fst).Nodup) : ((mapSet m k v).map Prod.fst).Nodup := by
  induction m with
  | nil => simp [mapSet]
  | cons kv rest ih =>
    obtain ⟨k0, v0⟩ := kv
    simp only [List.map, List.nodup_cons] at h
    simp only [mapSet]
    by_cases h0 : k0 = k
    · subst h0
      simp only [List.map, List.nodup_cons]
      exact h
    · rw [if_neg h0]
      simp only [List.map, List.nodup_cons]
      refine ⟨?_, ih h.2⟩
      intro hmem
      rcases (mem_keys_mapSet rest k v k0).mp hmem with hm | he
      · exact h.1 hm
      · exact h0 he

/-- A key not bound in the folded map reads through to the accumulator. -/
theorem mapGet_foldl_mapSet_of_none {β : Type} (extra : List (String × β))
    (init : List (String × β)) (x : String) (h : mapGet extra x = none) :
    mapGet (extra.foldl (fun m kv => mapSet m kv.1 kv.2) init) x = mapGet init x := by
  induction extra generalizing init with
  | nil => rfl
  | cons kv rest ih =>
    obtain ⟨k0, v0⟩ := kv
    simp only [mapGet] at h
    by_cases h0 : k0 = x
    · rw [if_pos h0] at h; exact absurd h (by simp)
    · rw [if_neg h0] at h
      simp only [List.foldl]
      rw [ih (mapSet init k0 v0) h]
      rw [mapGet_mapSet]
      rw [if_neg (fun hk => h0 hk)]

/-- Looking a key up after folding a map into an accumulator: a key bound in
the folded map (with duplicate-free keys) keeps its value. -/
theorem mapGet_foldl_mapSet_of_some {β : Type} (extra : List (String × β))
    (init : List (String × β)) (x : String) (v : β)
    (hnd : (extra.map Prod.fst).Nodup) (h : mapGet extra x = some v) :
    mapGet (extra.foldl (fun m kv => mapSet m kv.1 kv.2) init) x = some v := by
  induction extra generalizing init with
  | nil => simp [mapGet] at h
  | cons kv rest ih =>
    obtain ⟨k0, v0⟩ := kv
    simp only [List.map, List.nodup_cons] at hnd
    simp only [mapGet] at h
    simp only [List.foldl]
    by_cases h0 : k0 = x
    · rw [if_pos h0] at h
      subst h0
      have hrest : mapGet rest k0 = none := mapGet_eq_none_of_not_mem rest k0 hnd.1
      rw [mapGet_foldl_mapSet_of_none rest (mapSet init k0 v0) k0 hrest]
      rw [mapGet_mapSet]
      simpa using h
    · rw [if_neg h0] at h
      exact ih (mapSet init k0 v0) hnd.2 h

/-- Inversion for the decode: a successfully decoded user's user-properties
field is exactly what `unmarshalObj` reads off the canonical key. -/
theorem unmarshalUser_userProperties (m : List (Key × Payload)) (u : User)
    (h : unmarshalUser m = .ok u) :
    unmarshalObj m KeyUserProperties = .ok u.userProperties := by
  unfold unmarshalUser at h
  simp only [bind, Except.bind] at h
  repeat' split at h
  all_goals try (exact absurd h (by simp))
  simp only [pure, Except.pure, Except.ok.injEq] at h
  subst h
  assumption

/-- The extra (unmapped) side of normalization has duplicate-free keys. -/
theorem normalizeContext_extra_keys_nodup (keyMap : List (String × Key))
    (ctx : FlattenedContext) :
    (((normalizeContext keyMap ctx).2).map Prod.fst).Nodup := by
  suffices hgen : ∀ acc : List (Key × Payload) × List (String × Payload),
      ((acc.2).map Prod.fst).Nodup →
      (((ctx.foldl (fun acc2 kv =>
        match mapGet keyMap kv.1 with
        | some resolvedKey => (mapSet acc2.1 resolvedKey kv.2, acc2.2)
        | none => (acc2.1, mapSet acc2.2 kv.1 kv.2)) acc).2).map Prod.fst).Nodup by
    exact hgen ([], []) (by simp)
  intro acc hacc
  induction ctx generalizing acc with
  | nil => exact hacc
  | cons kv rest ih =>
    simp only [List.foldl]
    cases hm : mapGet keyMap kv.1 with
    | some rk => exact ih _ hacc
    | none => exact ih _ (mapSet_keys_nodup _ _ _ hacc)

/-- Model of reading `User.UserProperties[k]` (a nil Go map reads as
absent). -/
def userPropsGet (u : User) (k : String) : Option Payload :=
  match u.userProperties with
  | none => none
  | some props => mapGet props k

/-- C10: when the context contains an explicit custom-properties map (under
an alias of the user_properties canonical key) together with keys that
resolve to no canonical key, the built subject record's user-properties map
contains every unmapped key with its original value, and an unmapped key of
the same name as an explicit entry overwrites it; explicit entries not
shadowed by an unmapped key keep their values. -/
theorem c10_unmapped_keys_merge (cfg : ProviderConfig) (ctx : FlattenedContext)
    (u : User) (hhook : cfg.userNormalizer = none)
    (hok : toAmplitudeUser cfg ctx = .ok u) :
    (∀ k v, mapGet (normalizeContext cfg.keyMap ctx).2 k = some v →
      userPropsGet u k = some v) ∧
    (∀ kvs k, mapGet (normalizeContext cfg.keyMap ctx).1 KeyUserProperties =
        some (.obj kvs) →
      mapGet (normalizeContext cfg.keyMap ctx).2 k = none →
      userPropsGet u k = mapGet kvs k) := by
  unfold toAmplitudeUser at hok
  cases hb : buildUser cfg ctx with
  | error e => rw [hb] at hok; exact absurd hok (by simp)
  | ok u0 =>
    rw [hb] at hok; dsimp only at hok
    split at hok
    · exact absurd hok (by simp)
    · replace hok : u0 = u := by simpa using hok
      subst hok
      unfold buildUser at hb
      cases hm : unmarshalUser (normalizeContext cfg.keyMap ctx).1 with
      | error msg => rw [hm] at hb; exact absurd hb (by simp)
      | ok user0 =>
        rw [hm] at hb; dsimp only at hb
        rw [hhook] at hb; dsimp only at hb
        replace hb : { user0 with
            userProperties :=
              mergeProps user0.userProperties (normalizeContext cfg.keyMap ctx).2 } = u0 := by
          simpa using hb
        have hup : u0.userProperties =
            mergeProps user0.userProperties (normalizeContext cfg.keyMap ctx).2 := by
          rw [← hb]
        have hnd := normalizeContext_extra_keys_nodup cfg.keyMap ctx
        constructor
        · intro k v hk
          unfold userPropsGet
          rw [hup]
          cases hexp : user0.userProperties with
          | none =>
            unfold mergeProps
            have hne : ((normalizeContext cfg.keyMap ctx).2).isEmpty = false := by
              cases hcase : (normalizeContext cfg.keyMap ctx).2 with
              | nil => rw [hcase] at hk; simp [mapGet] at hk
              | cons a l => simp
            rw [hne]; dsimp only
            exact mapGet_foldl_mapSet_of_some _ _ _ _ hnd hk
          | some m0 =>
            unfold mergeProps
            dsimp only
            exact mapGet_foldl_mapSet_of_some _ _ _ _ hnd hk
        · intro kvs k hexp hk
          have hobj := unmarshalUser_userProperties _ _ hm
          unfold unmarshalObj at hobj
          rw [hexp] at hobj
          replace hobj : some kvs = user0.userProperties := by simpa using hobj
          unfold userPropsGet
          rw [hup, ← hobj]
          unfold mergeProps
          dsimp only
          rw [mapGet_foldl_mapSet_of_none _ _ _ hk]

def cfgP : ProviderConfig :=
  { keyMap := [(KeyUserID, KeyUserID), (KeyUserProperties, KeyUserProperties)],
    userNormalizer := none }

/-- A context with an explicit custom-properties map, an unmapped key `a`
shadowing one of its entries, and a second unmapped key `custom`. -/
def ctxP : FlattenedContext :=
  [(KeyUserID, .str "u"),
   (KeyUserProperties, .obj [("a", .str "explicit"), ("b", .str "keep")]),
   ("a", .str "extraWins"), ("custom", .num 1)]

/-- The user built from `ctxP`. -/
def userP : User :=
  { userEmpty with
    userId := "u",
    userProperties := some [("a", .str "extraWins"), ("b", .str "keep"),
                            ("custom", .num 1)] }

theorem c10_unmapped_keys_merge_witness :
    userPropsGet userP "a" = some (.str "extraWins") ∧
    userPropsGet userP "custom" = some (.num 1) ∧
    userPropsGet userP "b" = some (.str "keep") :=
  ⟨(c10_unmapped_keys_merge cfgP ctxP userP rfl rfl).1 "a" (.str "extraWins") rfl,
   (c10_unmapped_keys_merge cfgP ctxP userP rfl rfl).1 "custom" (.num 1) rfl,
   ((c10_unmapped_keys_merge cfgP ctxP userP rfl rfl).2
      [("a", .str "explicit"), ("b", .str "keep")] "b" rfl rfl).trans rfl⟩
